import Mathlib

/-!
Shallow embedding of the Chatapp server data layer.

The repository contains two independently evolved in-memory storage
variants plus an Express route layer:

* `ChatStore` models the storage in `src/unnamed/part_000`
  (`MemStorage` over users/chats/chatMembers/messages/statuses keyed by
  numeric ids) together with the HTTP handlers of
  `src/server/routes.ts` that drive it.
* `ConvStore` models the storage in `src/unnamed/part_001`
  (`MemStorage` over conversations/messages/statuses with string user
  uids, a `viewCount` field and `StatusView` rows).

JavaScript `Map` objects are modelled as insertion-ordered association
lists: `Map.prototype.set` replaces the value in place when the key is
present and appends otherwise, and `Map.prototype.values()` iterates in
insertion order.  `Date` values are modelled as natural numbers
(milliseconds since the epoch); each `new Date()` call in a handler is
modelled as an explicit clock parameter, and distinct calls within one
handler get distinct parameters where that distinction is observable.
`Array.prototype.sort` is stable (ES2019), so a sort with comparator
`a.t - b.t` is modelled by `List.insertionSort` on `a.t ≤ b.t`, which
is the stable ascending sort.
-/

namespace Chatapp

/-- Model of `Map.prototype.set`: replace in place if the key exists,
otherwise append at the end (insertion order preserved). -/
def mapSet {α : Type} (m : List (Nat × α)) (k : Nat) (v : α) : List (Nat × α) :=
  match m with
  | [] => [(k, v)]
  | (k', v') :: rest => if k' = k then (k, v) :: rest else (k', v') :: mapSet rest k v

/-- Model of `Map.prototype.get`. -/
def mapGet {α : Type} (m : List (Nat × α)) (k : Nat) : Option α :=
  match m with
  | [] => none
  | (k', v) :: rest => if k' = k then some v else mapGet rest k

/-- Model of `Array.from(map.values())` (insertion order). -/
def mapValues {α : Type} (m : List (Nat × α)) : List α :=
  m.map Prod.snd

/-- String-keyed variant of `mapSet` (for the uid-keyed maps of the
conversations storage). -/
def smapSet {α : Type} (m : List (String × α)) (k : String) (v : α) : List (String × α) :=
  match m with
  | [] => [(k, v)]
  | (k', v') :: rest => if k' = k then (k, v) :: rest else (k', v') :: smapSet rest k v

/-- String-keyed variant of `mapGet`. -/
def smapGet {α : Type} (m : List (String × α)) (k : String) : Option α :=
  match m with
  | [] => none
  | (k', v) :: rest => if k' = k then some v else smapGet rest k

/-! ### Variant A: the chats storage (`src/unnamed/part_000`) and its routes -/

namespace ChatStore

/-- User row of the chats schema (`src/unnamed/part_016`); only the
fields read by the modelled operations are kept. -/
structure UserA where
  id : Nat
  username : String
  firebaseUid : String
deriving DecidableEq, Repr

/-- Chat row (`chats` table in `src/unnamed/part_016`). -/
structure Chat where
  id : Nat
  type : String
  name : Option String
  createdBy : Nat
  lastMessage : Option String
  lastMessageTime : Option Nat
  createdAt : Nat
deriving DecidableEq, Repr

/-- Chat membership row (`chat_members` table). -/
structure ChatMember where
  id : Nat
  chatId : Nat
  userId : Nat
  isAdmin : Bool
  joinedAt : Nat
deriving DecidableEq, Repr

/-- Message row (`messages` table). -/
structure Message where
  id : Nat
  chatId : Nat
  senderId : Nat
  messageType : String
  content : String
  timestamp : Nat
  readBy : List Nat
deriving DecidableEq, Repr

/-- Status row (`statuses` table). -/
structure Status where
  id : Nat
  userId : Nat
  content : String
  type : String
  timestamp : Nat
  expiresAt : Nat
  viewedBy : List Nat
deriving DecidableEq, Repr

/-- The `MemStorage` instance state of `src/unnamed/part_000`:
one `Map` per entity plus the per-entity id counters. -/
structure MemState where
  users : List (Nat × UserA)
  chats : List (Nat × Chat)
  chatMembers : List (Nat × ChatMember)
  messages : List (Nat × Message)
  statuses : List (Nat × Status)
  userIdCounter : Nat
  chatIdCounter : Nat
  chatMemberIdCounter : Nat
  messageIdCounter : Nat
  statusIdCounter : Nat
deriving DecidableEq, Repr

/-- `MemStorage.getChat` (part_000 lines 98-108).  The source attaches
the member list to the returned copy; the chat fields themselves are
returned unchanged, and callers in scope only read those fields. -/
def MemState.getChat (st : MemState) (id : Nat) : Option Chat :=
  mapGet st.chats id

/-- `MemStorage.getChatMembers` (part_000 lines 158-172): all membership
rows whose `chatId` matches, in `Map` insertion order.  The per-member
`user` join decorates each row and is dropped here (no caller in the
claims reads it). -/
def MemState.getChatMembers (st : MemState) (chatId : Nat) : List ChatMember :=
  (mapValues st.chatMembers).filter (fun m => m.chatId == chatId)

/-- `MemStorage.addChatMember` (part_000 lines 174-180): allocate the
next member id, stamp `joinedAt`, store.  No duplicate check of any
kind. -/
def MemState.addChatMember (st : MemState) (chatId userId : Nat) (isAdmin : Bool)
    (joinedAt : Nat) : MemState × ChatMember :=
  let id := st.chatMemberIdCounter
  let member : ChatMember := ⟨id, chatId, userId, isAdmin, joinedAt⟩
  ({ st with
      chatMembers := mapSet st.chatMembers id member
      chatMemberIdCounter := id + 1 }, member)

/-- `MemStorage.updateChatLastMessage` (part_000 lines 147-155):
silently a no-op when the chat is missing. -/
def MemState.updateChatLastMessage (st : MemState) (chatId : Nat) (message : String)
    (timestamp : Nat) : MemState :=
  match mapGet st.chats chatId with
  | none => st
  | some chat =>
      { st with
          chats := mapSet st.chats chatId
            { chat with lastMessage := some message, lastMessageTime := some timestamp } }

/-- `MemStorage.createMessage` (part_000 lines 221-232): allocate id,
stamp `timestamp`, and store with `readBy := []`. -/
def MemState.createMessage (st : MemState) (chatId senderId : Nat)
    (messageType content : String) (now : Nat) : MemState × Message :=
  let id := st.messageIdCounter
  let message : Message := ⟨id, chatId, senderId, messageType, content, now, []⟩
  ({ st with
      messages := mapSet st.messages id message
      messageIdCounter := id + 1 }, message)

/-- Comparator relation of the message sort in
`MemStorage.getChatMessages`: ascending `timestamp` (the JS comparator
returns `ta - tb`; `Array.prototype.sort` is stable). -/
def tsLe (a b : Message) : Prop := a.timestamp ≤ b.timestamp

instance : DecidableRel tsLe := fun a b => Nat.decLe a.timestamp b.timestamp

/-- A message joined with its sender, as returned by
`MemStorage.getChatMessages`. -/
structure MessageWithSender where
  message : Message
  sender : Option UserA
deriving DecidableEq, Repr

/-- `MemStorage.getChatMessages` (part_000 lines 205-219): filter by
`chatId`, stable-sort ascending by timestamp, then attach each sender
(`Promise.all` over `map` preserves order). -/
def MemState.getChatMessages (st : MemState) (chatId : Nat) : List MessageWithSender :=
  let chatMessages :=
    (((mapValues st.messages).filter (fun m => m.chatId == chatId)).insertionSort tsLe)
  chatMessages.map (fun m => ⟨m, mapGet st.users m.senderId⟩)

/-- Comparator relation of the status sort in `MemStorage.getStatuses`:
descending `timestamp` (JS comparator `tb - ta`, stable). -/
def tsGe (a b : Status) : Prop := b.timestamp ≤ a.timestamp

instance : DecidableRel tsGe := fun a b => Nat.decLe b.timestamp a.timestamp

/-- A status joined with its author and derived view count, as returned
by `MemStorage.getStatuses`. -/
structure StatusWithUser where
  status : Status
  user : Option UserA
  viewCount : Nat
deriving DecidableEq, Repr

/-- `MemStorage.getStatuses` (part_000 lines 247-267): keep statuses
with `expiresAt > now`, stable-sort by timestamp descending, attach the
author and `viewCount := viewedBy.length` (`viewedBy` is always an
array in this model, so the `Array.isArray` guard always passes). -/
def MemState.getStatuses (st : MemState) (now : Nat) : List StatusWithUser :=
  let active :=
    (((mapValues st.statuses).filter (fun s => now < s.expiresAt)).insertionSort tsGe)
  active.map (fun s => ⟨s, mapGet st.users s.userId, s.viewedBy.length⟩)

/-- `MemStorage.createStatus` (part_000 lines 278-297): allocate id,
stamp `timestamp`, keep the caller-supplied `expiresAt` (already a
date in this model, so the `instanceof Date` normalisation is the
identity), and store with `viewedBy := []`. -/
def MemState.createStatus (st : MemState) (userId : Nat) (content stype : String)
    (expiresAt : Nat) (now : Nat) : MemState × Status :=
  let id := st.statusIdCounter
  let status : Status := ⟨id, userId, content, stype, now, expiresAt, []⟩
  ({ st with
      statuses := mapSet st.statuses id status
      statusIdCounter := id + 1 }, status)

/-- `MemStorage.viewStatus` (part_000 lines 299-309): no-op when the
status is missing or the user already viewed it; otherwise append the
user to `viewedBy`.  Note that `expiresAt` is never consulted. -/
def MemState.viewStatus (st : MemState) (statusId userId : Nat) : MemState :=
  match mapGet st.statuses statusId with
  | none => st
  | some status =>
      if userId ∈ status.viewedBy then st
      else
        { st with
            statuses := mapSet st.statuses statusId
              { status with viewedBy := status.viewedBy ++ [userId] } }

/-! ### Route handlers of `src/server/routes.ts` driving the chats storage -/

/-- Parse-valid body of `POST /api/messages` after
`insertMessageSchema.parse({...req.body, senderId: user.id})`:
`chatId`, `messageType` and `content` are required, `readBy` and
`timestamp` are omitted by the schema. -/
structure MessageBody where
  chatId : Nat
  messageType : String
  content : String
deriving DecidableEq, Repr

/-- The `POST /api/messages` handler (routes.ts lines 276-331) for an
authenticated sender.  There is no membership check anywhere on this
path.  `now₁` is the `new Date()` read inside
`MemStorage.createMessage`; `now₂` is the separate `new Date()` passed
to `updateChatLastMessage` at line 303.  The WebSocket fan-out touches
no storage state and is omitted. -/
def postMessages (st : MemState) (senderId : Nat) (body : MessageBody)
    (now₁ now₂ : Nat) : MemState × Message :=
  let r := st.createMessage body.chatId senderId body.messageType body.content now₁
  (r.1.updateChatLastMessage body.chatId body.content now₂, r.2)

/-- Error responses of the `POST /api/chats/:id/members` handler. -/
inductive AddMemberError where
  | badRequest
  | notFound
  | capacityExceeded
deriving DecidableEq, Repr

/-- The `POST /api/chats/:id/members` handler (routes.ts lines
219-256): 400 when `userId` is falsy, 404 when the chat is missing,
400 when a group chat already has 2000 members; otherwise insert via
`addChatMember`.  No check for an already-existing (chatId, userId)
membership. -/
def postChatMembers (st : MemState) (chatId userId : Nat) (isAdmin : Bool)
    (now : Nat) : Except AddMemberError (MemState × ChatMember) :=
  if userId = 0 then .error .badRequest
  else
    match st.getChat chatId with
    | none => .error .notFound
    | some chat =>
        if chat.type = "group" ∧ 2000 ≤ (st.getChatMembers chatId).length then
          .error .capacityExceeded
        else
          .ok (st.addChatMember chatId userId isAdmin now)

/-- Body of `POST /api/statuses` as sent by a client; the client may
supply its own `expiresAt`. -/
structure StatusBody where
  content : String
  type : String
  expiresAt : Option Nat
deriving DecidableEq, Repr

/-- The `POST /api/statuses` handler (routes.ts lines 380-417) for an
authenticated user: it computes `expiresAt = now + 24h`
(`setHours(getHours() + 24)`, i.e. exactly 24 hours later under a
fixed-offset clock) and builds the parsed draft as
`{...req.body, userId, expiresAt}` — the spread order makes the
server-computed `expiresAt` override any client-supplied one. -/
def postStatuses (st : MemState) (userId : Nat) (body : StatusBody)
    (now : Nat) : MemState × Status :=
  let expiresAt := now + 86400000
  st.createStatus userId body.content body.type expiresAt now

/-- Creation order with ties broken by id: the order the spec requires
of `getMessagesForChat`. -/
def msgLex (a b : Message) : Prop :=
  a.timestamp < b.timestamp ∨ (a.timestamp = b.timestamp ∧ a.id < b.id)

/-- Group-capacity invariant: every stored group chat has at most 2000
membership rows. -/
def GroupCapInv (st : MemState) : Prop :=
  ∀ p ∈ st.chats, (p : Nat × Chat).2.type = "group" →
    (st.getChatMembers p.1).length ≤ 2000

/-- Run a sequence of `POST /api/chats/:id/members` requests
(chatId, userId, isAdmin, clock); a failed request leaves the storage
untouched. -/
def runAdds (st : MemState) (ops : List (Nat × Nat × Bool × Nat)) : MemState :=
  ops.foldl (fun s op =>
    match postChatMembers s op.1 op.2.1 op.2.2.1 op.2.2.2 with
    | .ok r => r.1
    | .error _ => s) st

end ChatStore

/-! ### Variant B: the conversations storage (`src/unnamed/part_001`) -/

namespace ConvStore

/-- Conversation row; only fields read or written by the modelled
operations are kept (`memberCount`, `lastMessage`, `lastMessageAt`,
`createdBy`). -/
structure Conversation where
  id : Nat
  createdBy : String
  memberCount : Nat
  lastMessage : Option String
  lastMessageAt : Option Nat
deriving DecidableEq, Repr

/-- Conversation membership row. -/
structure ConversationMember where
  id : Nat
  conversationId : Nat
  userId : String
  isAdmin : Bool
  joinedAt : Nat
deriving DecidableEq, Repr

/-- Message row of the conversations variant: string sender uid,
optional text and image, `readBy` a list of uids. -/
structure Message where
  id : Nat
  conversationId : Nat
  senderId : Option String
  text : Option String
  imageUrl : Option String
  createdAt : Nat
  readBy : List String
deriving DecidableEq, Repr

/-- Status row of the conversations variant: string author uid plus a
stored `viewCount`. -/
structure Status where
  id : Nat
  userId : String
  content : String
  createdAt : Nat
  expiresAt : Nat
  viewCount : Nat
  viewedBy : List String
deriving DecidableEq, Repr

/-- StatusView row: one row per first-time view. -/
structure StatusView where
  id : Nat
  statusId : Nat
  viewerId : String
  viewedAt : Nat
deriving DecidableEq, Repr

/-- The `MemStorage` state of `src/unnamed/part_001` (the maps touched
by the modelled operations; `users`/`usersByUid` are never read by
them). -/
structure ConvState where
  conversations : List (Nat × Conversation)
  conversationMembers : List (Nat × List ConversationMember)
  messages : List (Nat × Message)
  messagesByConversation : List (Nat × List Message)
  statuses : List (Nat × Status)
  statusesByUser : List (String × List Status)
  statusViews : List (Nat × List StatusView)
  conversationMemberId : Nat
  messageId : Nat
  statusId : Nat
  statusViewId : Nat
deriving DecidableEq, Repr

/-- JavaScript string-option truthiness: `undefined`, `null` and `""`
are falsy. -/
def jsTruthy : Option String → Bool
  | none => false
  | some s => !(s == "")

/-- Insert draft for the conversations `createMessage`. -/
structure InsertMessage where
  conversationId : Nat
  senderId : Option String
  text : Option String
  imageUrl : Option String
deriving DecidableEq, Repr

/-- `MemStorage.createMessage` (part_001 lines 219-242): store the
message with `readBy = senderId ? [senderId] : []`, append it to the
per-conversation list, then update the conversation's
`lastMessage = message.text || "Image"` and
`lastMessageAt = message.createdAt`.  When the conversation is missing
the final `updateConversation` throws *after* the message inserts, so
the partially-updated state is kept and no message is returned. -/
def ConvState.createMessage (st : ConvState) (data : InsertMessage)
    (now : Nat) : ConvState × Option Message :=
  let id := st.messageId
  let message : Message :=
    { id := id
      conversationId := data.conversationId
      senderId := data.senderId
      text := data.text
      imageUrl := data.imageUrl
      createdAt := now
      readBy := if jsTruthy data.senderId then [data.senderId.getD ""] else [] }
  let convMessages := ((mapGet st.messagesByConversation data.conversationId).getD []) ++ [message]
  let st₁ :=
    { st with
        messages := mapSet st.messages id message
        messagesByConversation := mapSet st.messagesByConversation data.conversationId convMessages
        messageId := id + 1 }
  match mapGet st₁.conversations data.conversationId with
  | none => (st₁, none)
  | some conv =>
      ({ st₁ with
          conversations := mapSet st₁.conversations data.conversationId
            { conv with
                lastMessage := some (match data.text with
                  | some t => if t == "" then "Image" else t
                  | none => "Image")
                lastMessageAt := some now } }, some message)

/-- `MemStorage.getConversationMessages` (part_001 lines 244-246):
the per-conversation list in append (= creation) order, unsorted. -/
def ConvState.getConversationMessages (st : ConvState) (conversationId : Nat) : List Message :=
  (mapGet st.messagesByConversation conversationId).getD []

/-- `MemStorage.getAllStatuses` (part_001 lines 300-302): every stored
status, no expiry filter. -/
def ConvState.getAllStatuses (st : ConvState) : List Status :=
  mapValues st.statuses

/-- `MemStorage.viewStatus` (part_001 lines 304-339): throws when the
status is missing (modelled as `none`); returns with no state change
when the viewer is already in `viewedBy`; otherwise records a
`StatusView` row, appends the viewer, increments `viewCount`, and
mirrors the updated status into `statusesByUser`.  `expiresAt` is
never consulted. -/
def ConvState.viewStatus (st : ConvState) (statusId : Nat) (viewerId : String)
    (now : Nat) : Option ConvState :=
  match mapGet st.statuses statusId with
  | none => none
  | some status =>
      if viewerId ∈ status.viewedBy then some st
      else
        let sv : StatusView := ⟨st.statusViewId, statusId, viewerId, now⟩
        let views := ((mapGet st.statusViews statusId).getD []) ++ [sv]
        let updatedStatus :=
          { status with
              viewCount := status.viewCount + 1
              viewedBy := status.viewedBy ++ [viewerId] }
        let userStatuses :=
          ((smapGet st.statusesByUser status.userId).getD []).map
            (fun s => if s.id == statusId then updatedStatus else s)
        some
          { st with
              statusViews := mapSet st.statusViews statusId views
              statusViewId := st.statusViewId + 1
              statuses := mapSet st.statuses statusId updatedStatus
              statusesByUser := smapSet st.statusesByUser status.userId userStatuses }

end ConvStore

/-! ### Concrete states used by counterexamples and witnesses -/

namespace ChatStore

/-- Sample direct chat with id 1 whose only member is user 2. -/
def chat₁ : Chat :=
  { id := 1, type := "direct", name := none, createdBy := 2
    lastMessage := some "hello", lastMessageTime := some 10, createdAt := 0 }

/-- The single membership row of `st₁`: user 2 in chat 1. -/
def member₁ : ChatMember :=
  { id := 1, chatId := 1, userId := 2, isAdmin := true, joinedAt := 0 }

/-- Sample chats-variant storage state: one chat, one member, no
messages or statuses. -/
def st₁ : MemState :=
  { users := []
    chats := [(1, chat₁)]
    chatMembers := [(1, member₁)]
    messages := []
    statuses := []
    userIdCounter := 3
    chatIdCounter := 2
    chatMemberIdCounter := 2
    messageIdCounter := 1
    statusIdCounter := 1 }

/-- An already-expired status by user 2 (expiry 86400000, i.e. created
at time 0). -/
def status₂ : Status :=
  { id := 1, userId := 2, content := "old", type := "text"
    timestamp := 0, expiresAt := 86400000, viewedBy := [] }

/-- Chats-variant state holding the expired `status₂` next to the data
of `st₁`. -/
def st₂ : MemState :=
  { st₁ with statuses := [(1, status₂)], statusIdCounter := 2 }

/-- A group chat at full capacity. -/
def capChat : Chat :=
  { id := 1, type := "group", name := some "big", createdBy := 2
    lastMessage := none, lastMessageTime := none, createdAt := 0 }

/-- 2000 membership rows for `capChat`. -/
def capMembers : List (Nat × ChatMember) :=
  (List.range 2000).map (fun i => (i + 1, ⟨i + 1, 1, i + 2, false, 0⟩))

/-- Chats-variant state in which group chat 1 already has 2000
members. -/
def stCap : MemState :=
  { users := []
    chats := [(1, capChat)]
    chatMembers := capMembers
    messages := []
    statuses := []
    userIdCounter := 2500
    chatIdCounter := 2
    chatMemberIdCounter := 2001
    messageIdCounter := 1
    statusIdCounter := 1 }

/-- Chats-variant state with three messages in chat 1, two of them
sharing a timestamp. -/
def stMsgs : MemState :=
  { st₁ with
      messages :=
        [(1, ⟨1, 1, 2, "text", "first", 5, []⟩),
         (2, ⟨2, 1, 2, "text", "second", 5, []⟩),
         (3, ⟨3, 1, 2, "text", "third", 3, []⟩)]
      messageIdCounter := 4 }

end ChatStore

namespace ConvStore

/-- Sample conversations-variant state: one already-expired status by
author "a" with no viewers, one conversation. -/
def cst₁ : ConvState :=
  { conversations := [(1, { id := 1, createdBy := "a", memberCount := 2
                            lastMessage := none, lastMessageAt := none })]
    conversationMembers := [(1, [])]
    messages := []
    messagesByConversation := []
    statuses := [(1, { id := 1, userId := "a", content := "old", createdAt := 0
                       expiresAt := 86400000, viewCount := 0, viewedBy := [] })]
    statusesByUser := [("a", [{ id := 1, userId := "a", content := "old", createdAt := 0
                                expiresAt := 86400000, viewCount := 0, viewedBy := [] }])]
    statusViews := []
    conversationMemberId := 1
    messageId := 1
    statusId := 2
    statusViewId := 1 }

end ConvStore

/-! ### Supporting lemmas -/

theorem mapGet_mapSet_self {α : Type} (m : List (Nat × α)) (k : Nat) (v : α) :
    mapGet (mapSet m k v) k = some v := by
  induction m with
  | nil => simp [mapSet, mapGet]
  | cons hd tl ih =>
    obtain ⟨k', v'⟩ := hd
    by_cases h : k' = k
    · simp [mapSet, mapGet, h]
    · simp [mapSet, mapGet, h, ih]

theorem mapGet_mem {α : Type} {m : List (Nat × α)} {k : Nat} {v : α}
    (h : mapGet m k = some v) : (k, v) ∈ m := by
  induction m with
  | nil => simp [mapGet] at h
  | cons hd tl ih =>
    obtain ⟨k', v'⟩ := hd
    by_cases hk : k' = k
    · subst hk
      simp [mapGet] at h
      subst h
      exact List.mem_cons_self _ _
    · simp [mapGet, hk] at h
      exact List.mem_cons_of_mem _ (ih h)

/-- With duplicate-free keys, any entry sharing the key of a `mapGet`
hit carries the same value. -/
theorem mapGet_unique {α : Type} {m : List (Nat × α)} {k : Nat} {v w : α}
    (hnd : (m.map Prod.fst).Nodup) (h : mapGet m k = some v) (hm : (k, w) ∈ m) : w = v := by
  induction m with
  | nil => simp at hm
  | cons hd tl ih =>
    obtain ⟨k', v'⟩ := hd
    simp only [List.map_cons, List.nodup_cons] at hnd
    by_cases hk : k' = k
    · subst hk
      simp [mapGet] at h
      rcases List.mem_cons.mp hm with h' | h'
      · injection h' with h₁ h₂
        rw [h₂, h]
      · exact absurd (List.mem_map_of_mem Prod.fst h') (by simpa using hnd.1)
    · simp only [mapGet, if_neg hk] at h
      rcases List.mem_cons.mp hm with h' | h'
      · injection h' with h₁ h₂
        exact absurd h₁.symm hk
      · exact ih hnd.2 h h'

theorem mem_mapValues_mapSet {α : Type} (m : List (Nat × α)) (k : Nat) (v : α) :
    v ∈ mapValues (mapSet m k v) := by
  induction m with
  | nil => simp [mapSet, mapValues]
  | cons hd tl ih =>
    obtain ⟨k', v'⟩ := hd
    by_cases h : k' = k
    · simp [mapSet, mapValues, h]
    · simp only [mapSet, mapValues, if_neg h, List.map_cons]
      exact List.mem_cons_of_mem _ ih

theorem mem_mapValues_mapSet_elim {α : Type} {m : List (Nat × α)} {k : Nat} {v w : α}
    (h : w ∈ mapValues (mapSet m k v)) : w = v ∨ w ∈ mapValues m := by
  induction m with
  | nil =>
    simp [mapSet, mapValues] at h
    exact Or.inl h
  | cons hd tl ih =>
    obtain ⟨k', v'⟩ := hd
    by_cases hk : k' = k
    · simp only [mapSet, if_pos hk, mapValues, List.map_cons, List.mem_cons] at h
      rcases h with h | h
      · exact Or.inl h
      · exact Or.inr (by simp [mapValues, h])
    · simp only [mapSet, if_neg hk, mapValues, List.map_cons, List.mem_cons] at h
      rcases h with h | h
      · exact Or.inr (by simp [mapValues, h])
      · rcases ih h with h' | h'
        · exact Or.inl h'
        · exact Or.inr (by simp [mapValues]; exact Or.inr (by simpa [mapValues] using h'))

/-- One `Map.set` changes the number of values satisfying `p` by at most
one (it either replaces an existing entry or appends a new one). -/
theorem length_filter_mapValues_mapSet {α : Type} (p : α → Bool)
    (m : List (Nat × α)) (k : Nat) (v : α) :
    ((mapValues (mapSet m k v)).filter p).length ≤
      ((mapValues m).filter p).length + (if p v then 1 else 0) := by
  induction m with
  | nil =>
    simp only [mapSet, mapValues, List.map_cons, List.map_nil, List.filter]
    cases h : p v <;> simp [h]
  | cons hd tl ih =>
    obtain ⟨k', v'⟩ := hd
    by_cases hk : k' = k
    · simp only [mapSet, if_pos hk, mapValues, List.map_cons, List.filter]
      cases h : p v <;> cases h' : p v' <;>
        simp [h, h', List.length_cons] <;> omega
    · simp only [mapSet, if_neg hk, mapValues, List.map_cons, List.filter]
      have := ih
      simp only [mapValues] at this
      cases h' : p v' <;> simp only [List.length_cons] <;> omega

namespace ConvStore

/-- Projection of `createMessage` on the messages map: whether or not
the owning conversation exists, the new message is stored under the
allocated id before `updateConversation` runs. -/
theorem ConvState.createMessage_messages (cst : ConvState) (d : InsertMessage) (now : Nat) :
    (cst.createMessage d now).1.messages =
      mapSet cst.messages cst.messageId
        { id := cst.messageId
          conversationId := d.conversationId
          senderId := d.senderId
          text := d.text
          imageUrl := d.imageUrl
          createdAt := now
          readBy := if jsTruthy d.senderId then [d.senderId.getD ""] else [] } := by
  unfold ConvState.createMessage
  cases h : mapGet cst.conversations d.conversationId <;> simp [h]

end ConvStore

namespace ChatStore

/-- Successful member-add: the handler found the chat, the group
capacity guard did not fire, and the result is `addChatMember`. -/
theorem postChatMembers_ok_inv {st : MemState} {c u : Nat} {a : Bool} {n : Nat}
    {r : MemState × ChatMember}
    (h : postChatMembers st c u a n = .ok r) :
    ∃ chat, st.getChat c = some chat ∧
      ¬(chat.type = "group" ∧ 2000 ≤ (st.getChatMembers c).length) ∧
      r = st.addChatMember c u a n := by
  unfold postChatMembers at h
  by_cases hu : u = 0
  · rw [if_pos hu] at h
    simp at h
  · rw [if_neg hu] at h
    cases hc : st.getChat c with
    | none =>
        simp only [hc] at h
        simp at h
    | some chat =>
        simp only [hc] at h
        by_cases hcap : chat.type = "group" ∧ 2000 ≤ (st.getChatMembers c).length
        · rw [if_pos hcap] at h
          simp at h
        · rw [if_neg hcap] at h
          injection h with h
          exact ⟨chat, rfl, hcap, h.symm⟩

/-- A successful member-add preserves the group-capacity invariant,
provided the chat keys are duplicate-free. -/
theorem groupCapInv_step {st : MemState} {c u : Nat} {a : Bool} {n : Nat}
    {r : MemState × ChatMember}
    (hnd : (st.chats.map Prod.fst).Nodup) (hInv : GroupCapInv st)
    (h : postChatMembers st c u a n = .ok r) : GroupCapInv r.1 := by
  obtain ⟨chat, hc, hcap, hr⟩ := postChatMembers_ok_inv h
  subst hr
  intro p hp hgroup
  have hb := length_filter_mapValues_mapSet (fun m => m.chatId == p.1)
    st.chatMembers st.chatMemberIdCounter
    ⟨st.chatMemberIdCounter, c, u, a, n⟩
  have hmembers : (st.addChatMember c u a n).1.getChatMembers p.1 =
      (mapValues (mapSet st.chatMembers st.chatMemberIdCounter
        ⟨st.chatMemberIdCounter, c, u, a, n⟩)).filter (fun m => m.chatId == p.1) := rfl
  have hold : (st.getChatMembers p.1).length =
      ((mapValues st.chatMembers).filter (fun m => m.chatId == p.1)).length := rfl
  rw [hmembers]
  by_cases hk : c = p.1
  · have hmem : (c, p.2) ∈ st.chats := by
      rw [hk, Prod.mk.eta]
      exact hp
    have hpchat : p.2 = chat := mapGet_unique hnd hc hmem
    have hlt : (st.getChatMembers c).length < 2000 := by
      rcases Nat.lt_or_ge (st.getChatMembers c).length 2000 with h' | h'
      · exact h'
      · exact absurd ⟨by rw [← hpchat]; exact hgroup, h'⟩ hcap
    have hnew : ((⟨st.chatMemberIdCounter, c, u, a, n⟩ : ChatMember).chatId == p.1) = true := by
      simp [hk]
    rw [hnew, if_pos rfl] at hb
    rw [hk] at hlt
    omega
  · have hnew : ((⟨st.chatMemberIdCounter, c, u, a, n⟩ : ChatMember).chatId == p.1) = false := by
      simp [hk]
    rw [hnew, if_neg (by simp)] at hb
    have hle := hInv p hp hgroup
    omega

/-- Any sequence of member-add requests preserves the group-capacity
invariant. -/
theorem groupCapInv_runAdds (ops : List (Nat × Nat × Bool × Nat)) (st : MemState)
    (hnd : (st.chats.map Prod.fst).Nodup) (hInv : GroupCapInv st) :
    GroupCapInv (runAdds st ops) := by
  induction ops generalizing st with
  | nil => exact hInv
  | cons op rest ih =>
    have hstep : runAdds st (op :: rest) =
        runAdds (match postChatMembers st op.1 op.2.1 op.2.2.1 op.2.2.2 with
          | .ok r => r.1 | .error _ => st) rest := rfl
    rw [hstep]
    cases hres : postChatMembers st op.1 op.2.1 op.2.2.1 op.2.2.2 with
    | ok r =>
        simp only [hres]
        have hchats : r.1.chats = st.chats := by
          obtain ⟨chat, -, -, hr⟩ := postChatMembers_ok_inv hres
          rw [hr]
          rfl
        exact ih r.1 (by rw [hchats]; exact hnd) (groupCapInv_step hnd hInv hres)
    | error e =>
        simp only [hres]
        exact ih st hnd hInv

/-- Values of a map built by pairing each element with a key. -/
theorem mapValues_map {α β : Type} (l : List β) (key : β → Nat) (val : β → α) :
    mapValues (l.map fun i => (key i, val i)) = l.map val := by
  induction l with
  | nil => rfl
  | cons x t ih =>
      simp only [List.map_cons, mapValues] at ih ⊢
      rw [ih]

set_option maxRecDepth 10000 in
/-- Chat 1 of `stCap` has exactly 2000 membership rows. -/
theorem stCap_members_length : (stCap.getChatMembers 1).length = 2000 := by
  show ((mapValues stCap.chatMembers).filter (fun m => m.chatId == 1)).length = 2000
  have h2 : stCap.chatMembers = capMembers := rfl
  rw [h2]
  unfold capMembers
  rw [mapValues_map (List.range 2000) (fun i => i + 1)
    (fun i => (⟨i + 1, 1, i + 2, false, 0⟩ : ChatMember))]
  rw [List.filter_eq_self.mpr (by
    intro x hx
    simp only [List.mem_map] at hx
    obtain ⟨i, -, rfl⟩ := hx
    rfl)]
  rw [List.length_map, List.length_range]

/-- The capacity invariant holds in `stCap`. -/
theorem stCap_groupCapInv : GroupCapInv stCap := by
  intro p hp hg
  have hpe : p = (1, capChat) := by simpa [stCap] using hp
  subst hpe
  exact le_of_eq stCap_members_length

end ChatStore

/-! ### Claim theorems -/

/-- C1: the claim says a non-member's `sendMessage` must fail with a
membership error, create no Message and leave `lastMessage` unchanged.
The `POST /api/messages` handler performs no membership check at all:
here user 1 is not a member of chat 1, yet the call stores a new
Message and overwrites the chat's `lastMessage`/`lastMessageTime`. -/
theorem nonmember_sendMessage_succeeds :
    (∀ m ∈ ChatStore.st₁.getChatMembers 1, m.userId ≠ 1) ∧
    mapGet (ChatStore.postMessages ChatStore.st₁ 1 ⟨1, "text", "intruder"⟩ 20 20).1.messages 1 =
      some (ChatStore.postMessages ChatStore.st₁ 1 ⟨1, "text", "intruder"⟩ 20 20).2 ∧
    mapGet (ChatStore.postMessages ChatStore.st₁ 1 ⟨1, "text", "intruder"⟩ 20 20).1.chats 1 =
      some { ChatStore.chat₁ with lastMessage := some "intruder", lastMessageTime := some 20 } ∧
    ChatStore.chat₁.lastMessage ≠ some "intruder" := by
  decide

/-- C3: the claim says adding an existing (chatId, userId) membership
fails with `Conflict`.  Neither the `POST /api/chats/:id/members`
handler nor `addChatMember` looks up existing memberships: user 2 is
already a member of chat 1, yet the second add succeeds and chat 1 then
holds two membership rows for user 2. -/
theorem duplicate_addMember_succeeds :
    ((ChatStore.st₁.getChatMembers 1).filter (fun m => m.userId == 2)).length = 1 ∧
    (ChatStore.postChatMembers ChatStore.st₁ 1 2 false 30).toOption.map
      (fun r => ((r.1.getChatMembers 1).filter (fun m => m.userId == 2)).length) = some 2 := by
  decide

/-- C5: the stored expiry of a created status is always the server's
clock plus 24 hours, and two `POST /api/statuses` requests that differ
only in the client-supplied `expiresAt` field produce identical
results: the spread `{...req.body, userId, expiresAt}` overrides the
client value with the server-computed one. -/
theorem createStatus_server_expiry (st : ChatStore.MemState) (userId : Nat)
    (content stype : String) (e₁ e₂ : Option Nat) (now : Nat) :
    (ChatStore.postStatuses st userId ⟨content, stype, e₁⟩ now).2.expiresAt = now + 86400000 ∧
    ChatStore.postStatuses st userId ⟨content, stype, e₁⟩ now =
      ChatStore.postStatuses st userId ⟨content, stype, e₂⟩ now :=
  ⟨rfl, rfl⟩

/-- C9 counterexample: the claim says every message created by a
successful `sendMessage` has `readBy = [senderId]`.  On the served path
(`POST /api/messages` → part_000 `createMessage`) the stored message
has `readBy = []`: member 2 sends to chat 1 and the stored message's
`readBy` is empty, not `[2]`. -/
theorem createMessage_readBy_cex :
    mapGet (ChatStore.postMessages ChatStore.st₁ 2 ⟨1, "text", "hi"⟩ 40 40).1.messages 1 =
      some (ChatStore.postMessages ChatStore.st₁ 2 ⟨1, "text", "hi"⟩ 40 40).2 ∧
    (ChatStore.postMessages ChatStore.st₁ 2 ⟨1, "text", "hi"⟩ 40 40).2.senderId = 2 ∧
    (ChatStore.postMessages ChatStore.st₁ 2 ⟨1, "text", "hi"⟩ 40 40).2.readBy = [] ∧
    (ChatStore.postMessages ChatStore.st₁ 2 ⟨1, "text", "hi"⟩ 40 40).2.readBy ≠ [2] := by
  decide

/-- C9 amended: the chats-variant `createMessage` (the one behind
`POST /api/messages`) always stores `readBy = []`; the
conversations-variant `createMessage` stores `readBy = [senderId]`
whenever the draft's `senderId` is present and non-empty (JS
truthiness), else `[]`. -/
theorem createMessage_readBy_amended (st : ChatStore.MemState) (chatId senderId : Nat)
    (mt content : String) (now : Nat)
    (cst : ConvStore.ConvState) (d : ConvStore.InsertMessage) (n : Nat) (s : String)
    (hs : d.senderId = some s) (hne : s ≠ "") :
    (st.createMessage chatId senderId mt content now).2.readBy = [] ∧
    mapGet (cst.createMessage d n).1.messages cst.messageId =
      some { id := cst.messageId, conversationId := d.conversationId, senderId := some s
             text := d.text, imageUrl := d.imageUrl, createdAt := n, readBy := [s] } := by
  refine ⟨rfl, ?_⟩
  have htruthy : ConvStore.jsTruthy d.senderId = true := by
    rw [hs]
    simp [ConvStore.jsTruthy, hne]
  have hrec :
      ({ id := cst.messageId, conversationId := d.conversationId, senderId := d.senderId
         text := d.text, imageUrl := d.imageUrl, createdAt := n
         readBy := if ConvStore.jsTruthy d.senderId then [d.senderId.getD ""] else [] } :
        ConvStore.Message) =
      { id := cst.messageId, conversationId := d.conversationId, senderId := some s
        text := d.text, imageUrl := d.imageUrl, createdAt := n, readBy := [s] } := by
    simp [hs, ConvStore.jsTruthy, hne]
  rw [ConvStore.ConvState.createMessage_messages, hrec]
  exact mapGet_mapSet_self _ _ _

/-- C9 amended witness: member 2's message via the chats route has
empty `readBy`; a conversations-variant message from sender "a" has
`readBy = ["a"]`. -/
theorem createMessage_readBy_amended_witness :
    (ChatStore.st₁.createMessage 1 2 "text" "hi" 40).2.readBy = [] ∧
    mapGet (ConvStore.cst₁.createMessage ⟨1, some "a", some "hi", none⟩ 40).1.messages
        ConvStore.cst₁.messageId =
      some { id := ConvStore.cst₁.messageId, conversationId := 1, senderId := some "a"
             text := some "hi", imageUrl := none, createdAt := 40, readBy := ["a"] } :=
  createMessage_readBy_amended ChatStore.st₁ 1 2 "text" "hi" 40
    ConvStore.cst₁ ⟨1, some "a", some "hi", none⟩ 40 "a" rfl (by decide)

/-- C2: `viewStatus` of the conversations storage is idempotent — if a
first call with a fresh viewer succeeds, a second identical call
returns success with the state unchanged, and relative to the original
status the view count grew by exactly one and the viewer appears in
`viewedBy` exactly once. -/
theorem viewStatus_idempotent (cst cst₁ : ConvStore.ConvState) (sid : Nat) (v : String)
    (n₁ n₂ : Nat) (s₀ : ConvStore.Status)
    (h₀ : mapGet cst.statuses sid = some s₀)
    (hnv : v ∉ s₀.viewedBy)
    (h : cst.viewStatus sid v n₁ = some cst₁) :
    cst₁.viewStatus sid v n₂ = some cst₁ ∧
    ∃ s₁, mapGet cst₁.statuses sid = some s₁ ∧
      s₁.viewCount = s₀.viewCount + 1 ∧ s₁.viewedBy.count v = 1 := by
  unfold ConvStore.ConvState.viewStatus at h
  simp only [h₀] at h
  rw [if_neg hnv] at h
  injection h with h
  subst h
  constructor
  · unfold ConvStore.ConvState.viewStatus
    simp only [mapGet_mapSet_self]
    rw [if_pos (by simp)]
  · refine ⟨_, mapGet_mapSet_self _ _ _, rfl, ?_⟩
    simp [List.count_append, List.count_eq_zero_of_not_mem hnv]

/-- C2 witness: viewer "b" views the stored status of `cst₁` twice. -/
theorem viewStatus_idempotent_witness :
    ((ConvStore.cst₁.viewStatus 1 "b" 5).getD ConvStore.cst₁).viewStatus 1 "b" 6 =
      some ((ConvStore.cst₁.viewStatus 1 "b" 5).getD ConvStore.cst₁) ∧
    ∃ s₁, mapGet ((ConvStore.cst₁.viewStatus 1 "b" 5).getD ConvStore.cst₁).statuses 1 =
        some s₁ ∧ s₁.viewCount = 0 + 1 ∧ s₁.viewedBy.count "b" = 1 :=
  viewStatus_idempotent ConvStore.cst₁ _ 1 "b" 5 6
    { id := 1, userId := "a", content := "old", createdAt := 0
      expiresAt := 86400000, viewCount := 0, viewedBy := [] }
    (by decide) (by decide) (by decide)

/-- C10: `viewStatus` never consults `expiresAt` in either storage
variant: even for a status whose expiry has passed, a fresh viewer is
appended to `viewedBy` (and, in the conversations variant, the view
count still increments). -/
theorem viewStatus_ignores_expiry (st : ChatStore.MemState) (sid uid now : Nat)
    (s : ChatStore.Status)
    (h : mapGet st.statuses sid = some s) (hexp : s.expiresAt ≤ now) (hnv : uid ∉ s.viewedBy)
    (cst : ConvStore.ConvState) (sid' : Nat) (v : String) (n q : Nat)
    (s' : ConvStore.Status)
    (h' : mapGet cst.statuses sid' = some s') (hexp' : s'.expiresAt ≤ q)
    (hnv' : v ∉ s'.viewedBy) :
    mapGet (st.viewStatus sid uid).statuses sid =
      some { s with viewedBy := s.viewedBy ++ [uid] } ∧
    ∃ cst₁, cst.viewStatus sid' v n = some cst₁ ∧
      mapGet cst₁.statuses sid' =
        some { s' with viewCount := s'.viewCount + 1, viewedBy := s'.viewedBy ++ [v] } := by
  constructor
  · unfold ChatStore.MemState.viewStatus
    simp only [h]
    rw [if_neg hnv]
    exact mapGet_mapSet_self _ _ _
  · have hstep : cst.viewStatus sid' v n =
        some { cst with
            statusViews := mapSet cst.statusViews sid'
              (((mapGet cst.statusViews sid').getD []) ++ [⟨cst.statusViewId, sid', v, n⟩])
            statusViewId := cst.statusViewId + 1
            statuses := mapSet cst.statuses sid'
              { s' with viewCount := s'.viewCount + 1, viewedBy := s'.viewedBy ++ [v] }
            statusesByUser := smapSet cst.statusesByUser s'.userId
              (((smapGet cst.statusesByUser s'.userId).getD []).map
                (fun x => if x.id == sid' then
                  { s' with viewCount := s'.viewCount + 1, viewedBy := s'.viewedBy ++ [v] }
                  else x)) } := by
      unfold ConvStore.ConvState.viewStatus
      simp only [h']
      rw [if_neg hnv']
    exact ⟨_, hstep, mapGet_mapSet_self _ _ _⟩

/-- C10 witness: at time 90000000 the status of `cst₂`/`cst₁` (expiry
86400000) is long expired, yet both `viewStatus` variants still record
viewer 7 / viewer "b". -/
theorem viewStatus_ignores_expiry_witness :
    mapGet (ChatStore.st₂.viewStatus 1 7).statuses 1 =
      some { ChatStore.status₂ with viewedBy := ChatStore.status₂.viewedBy ++ [7] } ∧
    ∃ cst₁, ConvStore.cst₁.viewStatus 1 "b" 90000000 = some cst₁ ∧
      mapGet cst₁.statuses 1 =
        some { id := 1, userId := "a", content := "old", createdAt := 0
               expiresAt := 86400000, viewCount := 0 + 1, viewedBy := [] ++ ["b"] } :=
  viewStatus_ignores_expiry ChatStore.st₂ 1 7 90000000 ChatStore.status₂
    (by decide) (by decide) (by decide)
    ConvStore.cst₁ 1 "b" 90000000 90000000
    { id := 1, userId := "a", content := "old", createdAt := 0
      expiresAt := 86400000, viewCount := 0, viewedBy := [] }
    (by decide) (by decide) (by decide)

/-- C4: adding a member to a group chat that already has 2000 members
fails with the capacity error; the failed request leaves the storage
unchanged; and after any sequence of member-add requests every group
chat still has at most 2000 members. -/
theorem addMember_capacity (st : ChatStore.MemState) (chatId userId : Nat)
    (isAdmin : Bool) (now : Nat) (chat : ChatStore.Chat)
    (ops : List (Nat × Nat × Bool × Nat))
    (hnd : (st.chats.map Prod.fst).Nodup) (hInv : ChatStore.GroupCapInv st)
    (hu : userId ≠ 0)
    (h₁ : st.getChat chatId = some chat) (h₂ : chat.type = "group")
    (h₃ : (st.getChatMembers chatId).length = 2000) :
    ChatStore.postChatMembers st chatId userId isAdmin now =
      .error .capacityExceeded ∧
    ChatStore.runAdds st [(chatId, userId, isAdmin, now)] = st ∧
    ChatStore.GroupCapInv (ChatStore.runAdds st ops) := by
  have herr : ChatStore.postChatMembers st chatId userId isAdmin now =
      .error .capacityExceeded := by
    unfold ChatStore.postChatMembers
    rw [if_neg hu]
    simp only [h₁]
    rw [if_pos ⟨h₂, by omega⟩]
  refine ⟨herr, ?_, ChatStore.groupCapInv_runAdds ops st hnd hInv⟩
  show (match ChatStore.postChatMembers st chatId userId isAdmin now with
    | .ok r => r.1
    | .error _ => st) = st
  rw [herr]

/-- C4 witness: group chat 1 of `stCap` holds exactly 2000 members; the
2001st add fails with the capacity error and changes nothing, and two
further add requests keep every group chat within the bound. -/
theorem addMember_capacity_witness :
    ChatStore.postChatMembers ChatStore.stCap 1 9999 false 7 =
      .error .capacityExceeded ∧
    ChatStore.runAdds ChatStore.stCap [(1, 9999, false, 7)] = ChatStore.stCap ∧
    ChatStore.GroupCapInv
      (ChatStore.runAdds ChatStore.stCap [(1, 9999, false, 7), (1, 42, true, 8)]) :=
  addMember_capacity ChatStore.stCap 1 9999 false 7 ChatStore.capChat
    [(1, 9999, false, 7), (1, 42, true, 8)]
    (by decide) ChatStore.stCap_groupCapInv (by decide) rfl rfl
    ChatStore.stCap_members_length

/-- Membership in the status feed: a status appears (as the `status`
field of some feed row) exactly when it is stored and not yet
expired. -/
theorem mem_getStatuses_iff (st : ChatStore.MemState) (q : Nat) (s : ChatStore.Status) :
    (∃ x ∈ st.getStatuses q, x.status = s) ↔
      s ∈ mapValues st.statuses ∧ q < s.expiresAt := by
  unfold ChatStore.MemState.getStatuses
  constructor
  · rintro ⟨x, hx, hxs⟩
    obtain ⟨y, hy, rfl⟩ := List.mem_map.mp hx
    have hys : y = s := hxs
    subst hys
    have hy' := (List.mem_insertionSort ChatStore.tsGe).mp hy
    have hf := List.mem_filter.mp hy'
    exact ⟨hf.1, of_decide_eq_true hf.2⟩
  · rintro ⟨hmem, hq⟩
    exact ⟨⟨s, mapGet st.users s.userId, s.viewedBy.length⟩,
      List.mem_map_of_mem _ ((List.mem_insertionSort ChatStore.tsGe).mpr
        (List.mem_filter.mpr ⟨hmem, decide_eq_true hq⟩)), rfl⟩

/-- C6: a status stored by `POST /api/statuses` at time `T` carries
expiry `T + 24h`; it appears in the status feed exactly at query times
strictly below `T + 24h`; and it remains stored whatever the query time
(the feed filters expired statuses, it does not purge them). -/
theorem status_feed_active (st st' : ChatStore.MemState) (userId : Nat)
    (body : ChatStore.StatusBody) (T q : Nat) (s : ChatStore.Status)
    (h : ChatStore.postStatuses st userId body T = (st', s)) :
    mapGet st'.statuses s.id = some s ∧
    ((∃ x ∈ st'.getStatuses q, x.status = s) ↔ q < T + 86400000) := by
  have h1 : st' = (ChatStore.postStatuses st userId body T).1 := by rw [h]
  have h2 : s = (ChatStore.postStatuses st userId body T).2 := by rw [h]
  subst h1
  subst h2
  refine ⟨mapGet_mapSet_self _ _ _, ?_⟩
  rw [mem_getStatuses_iff]
  constructor
  · rintro ⟨-, hq⟩
    exact hq
  · intro hq
    exact ⟨mem_mapValues_mapSet _ _ _, hq⟩

/-- C6 witness: a status posted at time 0 is stored with expiry
86400000 and sits in the feed at query time 86399999 (one millisecond
before expiry); instantiating the same theorem at a later query time
would exclude it. -/
theorem status_feed_active_witness :
    mapGet (ChatStore.postStatuses ChatStore.st₁ 2 ⟨"hello", "text", some 123⟩ 0).1.statuses
        (ChatStore.postStatuses ChatStore.st₁ 2 ⟨"hello", "text", some 123⟩ 0).2.id =
      some (ChatStore.postStatuses ChatStore.st₁ 2 ⟨"hello", "text", some 123⟩ 0).2 ∧
    ((∃ x ∈ (ChatStore.postStatuses ChatStore.st₁ 2 ⟨"hello", "text", some 123⟩ 0).1.getStatuses
          86399999,
        x.status = (ChatStore.postStatuses ChatStore.st₁ 2 ⟨"hello", "text", some 123⟩ 0).2) ↔
      86399999 < 0 + 86400000) :=
  status_feed_active ChatStore.st₁ _ 2 ⟨"hello", "text", some 123⟩ 0 86399999 _ rfl

/-- Resulting storage of a `POST /api/messages` call whose chat exists:
the message is stored under the fresh id and the chat's cache fields
are overwritten with the request content and the second clock
reading. -/
theorem postMessages_state (st : ChatStore.MemState) (senderId : Nat)
    (body : ChatStore.MessageBody) (n₁ n₂ : Nat) (c : ChatStore.Chat)
    (hc : mapGet st.chats body.chatId = some c) :
    (ChatStore.postMessages st senderId body n₁ n₂).1 =
      { st with
          messages := mapSet st.messages st.messageIdCounter
            ⟨st.messageIdCounter, body.chatId, senderId, body.messageType, body.content, n₁, []⟩
          messageIdCounter := st.messageIdCounter + 1
          chats := mapSet st.chats body.chatId
            { c with lastMessage := some body.content, lastMessageTime := some n₂ } } := by
  unfold ChatStore.postMessages ChatStore.MemState.createMessage
    ChatStore.MemState.updateChatLastMessage
  simp only [hc]

/-- C7 counterexample: the handler passes a *second* `new Date()` to
`updateChatLastMessage` (routes.ts line 303) instead of the stored
message's timestamp, so when the clock ticks between the two reads
(here 1000 → 1001) the chat's `lastMessageTime` differs from the new
message's creation timestamp. -/
theorem sendMessage_cache_cex :
    (mapGet (ChatStore.postMessages ChatStore.st₁ 2 ⟨1, "text", "drift"⟩ 1000 1001).1.chats
        1).map ChatStore.Chat.lastMessageTime = some (some 1001) ∧
    (ChatStore.postMessages ChatStore.st₁ 2 ⟨1, "text", "drift"⟩ 1000 1001).2.timestamp =
      1000 ∧
    (mapGet (ChatStore.postMessages ChatStore.st₁ 2 ⟨1, "text", "drift"⟩ 1000 1001).1.chats
        1).map ChatStore.Chat.lastMessageTime ≠
      some (some
        ((ChatStore.postMessages ChatStore.st₁ 2 ⟨1, "text", "drift"⟩ 1000 1001).2.timestamp)) := by
  decide

/-- C7 amended: after a `POST /api/messages` call on an existing chat,
the chat's `lastMessage` equals the new message's content and its
`lastMessageTime` equals the handler's second clock reading; the new
message is stored, carries the first clock reading as its timestamp,
and has the largest message id in the store; the cache timestamp equals
the message's creation timestamp whenever the two clock readings
coincide. -/
theorem sendMessage_cache (st st' : ChatStore.MemState) (senderId : Nat)
    (body : ChatStore.MessageBody) (n₁ n₂ : Nat) (msg : ChatStore.Message)
    (c : ChatStore.Chat)
    (hc : mapGet st.chats body.chatId = some c)
    (hmax : ∀ m ∈ mapValues st.messages, m.id < st.messageIdCounter)
    (h : ChatStore.postMessages st senderId body n₁ n₂ = (st', msg)) :
    mapGet st'.chats body.chatId =
      some { c with lastMessage := some body.content, lastMessageTime := some n₂ } ∧
    msg.content = body.content ∧
    msg.timestamp = n₁ ∧
    mapGet st'.messages msg.id = some msg ∧
    (∀ m ∈ mapValues st'.messages, m.id ≤ msg.id) ∧
    (n₁ = n₂ → ∃ c', mapGet st'.chats body.chatId = some c' ∧
      c'.lastMessageTime = some msg.timestamp) := by
  have h1 : st' = (ChatStore.postMessages st senderId body n₁ n₂).1 := by rw [h]
  have h2 : msg = (ChatStore.postMessages st senderId body n₁ n₂).2 := by rw [h]
  subst h1
  subst h2
  have hst := postMessages_state st senderId body n₁ n₂ c hc
  have hmsg : (ChatStore.postMessages st senderId body n₁ n₂).2 =
      ⟨st.messageIdCounter, body.chatId, senderId, body.messageType, body.content, n₁, []⟩ :=
    rfl
  refine ⟨?_, rfl, rfl, ?_, ?_, ?_⟩
  · rw [hst]
    exact mapGet_mapSet_self _ _ _
  · rw [hst, hmsg]
    exact mapGet_mapSet_self _ _ _
  · rw [hst, hmsg]
    intro m hm
    rcases mem_mapValues_mapSet_elim hm with rfl | hm'
    · exact le_rfl
    · exact le_of_lt (hmax m hm')
  · intro hn
    refine ⟨{ c with lastMessage := some body.content, lastMessageTime := some n₂ }, ?_, ?_⟩
    · rw [hst]
      exact mapGet_mapSet_self _ _ _
    · show some n₂ = some n₁
      rw [hn]

/-- C7 amended witness: with both clock readings equal to 1000 the
cache fields match the message exactly. -/
theorem sendMessage_cache_witness :
    mapGet (ChatStore.postMessages ChatStore.st₁ 2 ⟨1, "text", "hey"⟩ 1000 1000).1.chats 1 =
      some { ChatStore.chat₁ with lastMessage := some "hey", lastMessageTime := some 1000 } ∧
    (ChatStore.postMessages ChatStore.st₁ 2 ⟨1, "text", "hey"⟩ 1000 1000).2.content = "hey" ∧
    (ChatStore.postMessages ChatStore.st₁ 2 ⟨1, "text", "hey"⟩ 1000 1000).2.timestamp = 1000 ∧
    mapGet (ChatStore.postMessages ChatStore.st₁ 2 ⟨1, "text", "hey"⟩ 1000 1000).1.messages
        (ChatStore.postMessages ChatStore.st₁ 2 ⟨1, "text", "hey"⟩ 1000 1000).2.id =
      some (ChatStore.postMessages ChatStore.st₁ 2 ⟨1, "text", "hey"⟩ 1000 1000).2 ∧
    (∀ m ∈ mapValues (ChatStore.postMessages ChatStore.st₁ 2 ⟨1, "text", "hey"⟩ 1000 1000).1.messages,
      m.id ≤ (ChatStore.postMessages ChatStore.st₁ 2 ⟨1, "text", "hey"⟩ 1000 1000).2.id) ∧
    ((1000 : Nat) = 1000 →
      ∃ c', mapGet (ChatStore.postMessages ChatStore.st₁ 2 ⟨1, "text", "hey"⟩ 1000 1000).1.chats
          1 = some c' ∧
        c'.lastMessageTime =
          some (ChatStore.postMessages ChatStore.st₁ 2 ⟨1, "text", "hey"⟩ 1000 1000).2.timestamp) :=
  sendMessage_cache ChatStore.st₁ _ 2 ⟨1, "text", "hey"⟩ 1000 1000 _ ChatStore.chat₁
    rfl (by decide) rfl

/-- Inserting the earliest-id element into a timestamp-sorted list with
the stable `orderedInsert` keeps the list lexicographically
(timestamp, id)-sorted. -/
theorem pairwise_lex_orderedInsert (a : ChatStore.Message) (l : List ChatStore.Message)
    (ha : ∀ b ∈ l, a.id < b.id) (hs : l.Pairwise ChatStore.msgLex) :
    (l.orderedInsert ChatStore.tsLe a).Pairwise ChatStore.msgLex := by
  induction l with
  | nil => simp [List.orderedInsert]
  | cons b t ih =>
    rcases List.pairwise_cons.mp hs with ⟨hbt, ht⟩
    rw [List.orderedInsert]
    by_cases hab : ChatStore.tsLe a b
    · rw [if_pos hab]
      have hab' : a.timestamp ≤ b.timestamp := hab
      refine List.Pairwise.cons ?_ hs
      intro x hx
      rcases List.mem_cons.mp hx with rfl | hx
      · rcases Nat.lt_or_ge a.timestamp x.timestamp with hlt | hge
        · exact Or.inl hlt
        · exact Or.inr ⟨Nat.le_antisymm hab' hge, ha x (List.mem_cons_self _ _)⟩
      · have hbx := hbt x hx
        have hbx' : b.timestamp ≤ x.timestamp := by
          rcases hbx with hlt | ⟨heq, -⟩
          · exact Nat.le_of_lt hlt
          · exact Nat.le_of_eq heq
        have hax : a.timestamp ≤ x.timestamp := Nat.le_trans hab' hbx'
        rcases Nat.lt_or_ge a.timestamp x.timestamp with hlt | hge
        · exact Or.inl hlt
        · exact Or.inr ⟨Nat.le_antisymm hax hge, ha x (List.mem_cons_of_mem _ hx)⟩
    · rw [if_neg hab]
      have hba : b.timestamp < a.timestamp := Nat.lt_of_not_le hab
      refine List.Pairwise.cons ?_ (ih (fun x hx => ha x (List.mem_cons_of_mem _ hx)) ht)
      intro x hx
      rcases (List.mem_orderedInsert ChatStore.tsLe).mp hx with rfl | hx
      · exact Or.inl hba
      · exact hbt x hx

/-- A list whose ids are strictly increasing, stable-sorted by
timestamp, is sorted lexicographically by (timestamp, id). -/
theorem pairwise_lex_insertionSort (l : List ChatStore.Message)
    (h : l.Pairwise (fun a b => a.id < b.id)) :
    (l.insertionSort ChatStore.tsLe).Pairwise ChatStore.msgLex := by
  induction l with
  | nil => simp [List.insertionSort]
  | cons a t ih =>
    rcases List.pairwise_cons.mp h with ⟨hat, ht⟩
    rw [List.insertionSort]
    exact pairwise_lex_orderedInsert a _
      (fun b hb => hat b ((List.mem_insertionSort ChatStore.tsLe).mp hb)) (ih ht)

/-- C8: in every store whose message values carry strictly increasing
ids (the invariant `MemStorage` maintains, since `createMessage` is the
only inserter and allocates from a monotone counter), `getChatMessages`
returns exactly the messages of the chat, ordered by timestamp
ascending with ties broken by id ascending — the stable JS sort plus
the id-ordered store yield the order the spec demands. -/
theorem getChatMessages_sorted (st : ChatStore.MemState) (chatId : Nat)
    (hids : (mapValues st.messages).Pairwise (fun a b => a.id < b.id)) :
    ((st.getChatMessages chatId).map ChatStore.MessageWithSender.message).Pairwise
      ChatStore.msgLex ∧
    ((st.getChatMessages chatId).map ChatStore.MessageWithSender.message).Perm
      ((mapValues st.messages).filter (fun m => m.chatId == chatId)) := by
  have hmap : (st.getChatMessages chatId).map ChatStore.MessageWithSender.message =
      ((mapValues st.messages).filter
        (fun m => m.chatId == chatId)).insertionSort ChatStore.tsLe := by
    unfold ChatStore.MemState.getChatMessages
    rw [List.map_map]
    exact List.map_id _
  rw [hmap]
  constructor
  · exact pairwise_lex_insertionSort _
      (hids.sublist (List.filter_sublist _))
  · exact List.perm_insertionSort _ _

/-- C8 witness: `stMsgs` holds messages with ids 1, 2, 3 and timestamps
5, 5, 3; the query returns them ordered 3 (ts 3), 1 (ts 5), 2 (ts 5) —
the timestamp tie between ids 1 and 2 is broken by id. -/
theorem getChatMessages_sorted_witness :
    ((ChatStore.stMsgs.getChatMessages 1).map ChatStore.MessageWithSender.message).Pairwise
      ChatStore.msgLex ∧
    ((ChatStore.stMsgs.getChatMessages 1).map ChatStore.MessageWithSender.message).Perm
      ((mapValues ChatStore.stMsgs.messages).filter (fun m => m.chatId == 1)) :=
  getChatMessages_sorted ChatStore.stMsgs 1 (by decide)

end Chatapp
